import Mathlib

/-!
Verification of the selkies streaming server against its specification.

Each Python module that the claims touch is shallowly embedded below:
pure functions become Lean functions; stateful handlers become explicit
state-passing functions on record types; Python `dict`s become
association lists with insert-or-replace semantics; Python `int()` on a
float becomes truncation toward zero on `ℚ`; fallible operations return
`Option`.  External library primitives (the HMAC-SHA1 digest) are taken
as parameters.
-/

namespace Selkies

/-! ## Association-list dictionaries (Python `dict` with string keys) -/

def dlookup (k : String) : List (String × α) → Option α
  | [] => none
  | (k₁, v) :: t => if k₁ = k then some v else dlookup k t

def dinsert (k : String) (v : α) : List (String × α) → List (String × α)
  | [] => [(k, v)]
  | (k₁, v₁) :: t => if k₁ = k then (k, v) :: t else (k₁, v₁) :: dinsert k v t

def derase (k : String) : List (String × α) → List (String × α)
  | [] => []
  | (k₁, v₁) :: t => if k₁ = k then derase k t else (k₁, v₁) :: derase k t

theorem dlookup_dinsert (k q : String) (v : α) (l : List (String × α)) :
    dlookup q (dinsert k v l) = if k = q then some v else dlookup q l := by
  induction l with
  | nil => simp only [dinsert, dlookup]
  | cons h t ih =>
    obtain ⟨k₁, v₁⟩ := h
    by_cases h1 : k₁ = k
    · subst h1
      by_cases h2 : k₁ = q <;> simp [dinsert, dlookup, h2]
    · by_cases h2 : k₁ = q
      · subst h2
        have : ¬ k = k₁ := fun hc => h1 hc.symm
        simp [dinsert, dlookup, h1, this]
      · simp [dinsert, dlookup, h1, h2, ih]

theorem dlookup_derase (k q : String) (l : List (String × α)) :
    dlookup q (derase k l) = if k = q then none else dlookup q l := by
  induction l with
  | nil => simp [derase, dlookup]
  | cons h t ih =>
    obtain ⟨k₁, v₁⟩ := h
    by_cases h1 : k₁ = k
    · subst h1
      by_cases h2 : k₁ = q
      · subst h2
        simp [derase, dlookup, ih]
      · simp [derase, dlookup, h2, ih]
    · by_cases h2 : k₁ = q
      · subst h2
        have hkq : ¬ k = k₁ := fun hc => h1 hc.symm
        simp [derase, dlookup, h1, hkq]
      · simp [derase, dlookup, h1, h2, ih]

/-!
## Signaling server (`src/selkies_gstreamer/signalling_web.py`, class `WebRTCSimpleServer`)

State: `peers` maps a uid to its status slot (`None`, `'session'`, or a
room id) — the websocket, address and metadata components of the Python
peer tuple are irrelevant to the tracked invariants; `sessions` is the
uid-to-uid pairing dict; `rooms` maps a room id to its member list.
-/

structure SigState where
  peers : List (String × Option String)
  sessions : List (String × String)
  rooms : List (String × List String)
  deriving Repr, DecidableEq

def sigInit : SigState := ⟨[], [], []⟩

/-- `WebRTCSimpleServer.cleanup_session` (signalling_web.py lines 245-259). -/
def cleanup_session (st : SigState) (uid : String) : SigState :=
  match dlookup uid st.sessions with
  | none => st
  | some other =>
    let s1 := derase uid st.sessions
    if (dlookup other s1).isSome then
      { st with sessions := derase other s1,
                peers := if (dlookup other st.peers).isSome
                         then derase other st.peers else st.peers }
    else { st with sessions := s1 }

/-- `WebRTCSimpleServer.cleanup_room` (lines 261-270): drop `uid` from the
room's member set; the Python `KeyError` on an absent room is modelled as
no mutation (the raise leaves the state untouched). -/
def cleanup_room (st : SigState) (uid room_id : String) : SigState :=
  match dlookup room_id st.rooms with
  | none => st
  | some ps =>
    if uid ∈ ps then
      { st with rooms := dinsert room_id (ps.filter (fun p => p != uid)) st.rooms }
    else st

/-- `WebRTCSimpleServer.remove_peer` (lines 272-280). -/
def remove_peer (st : SigState) (uid : String) : SigState :=
  let st1 := cleanup_session st uid
  match dlookup uid st1.peers with
  | none => st1
  | some status =>
    let st2 := match status with
      | some s => if s ≠ "session" ∧ s ≠ "" then cleanup_room st1 uid s else st1
      | none => st1
    { st2 with peers := derase uid st2.peers }

/-- HELLO registration (`handle_websocket` lines 290-298 with `hello_peer`):
a duplicate uid displaces the old peer via `remove_peer`, then the fresh
peer is registered with status `None`. -/
def hello_register (st : SigState) (uid : String) : SigState :=
  let st1 := if (dlookup uid st.peers).isSome then remove_peer st uid else st
  { st1 with peers := dinsert uid none st1.peers }

/-- SESSION command (`handle_websocket` lines 346-368).  The branch is only
reached when the caller's own status is `None` (outer dispatch at line 310);
an unknown callee gets an ERROR reply and no mutation.  Note the code never
inspects the callee's status: line 353 re-tests the caller's status (always
`None` on this path), so the `'ERROR peer busy'` reply is dead code and the
assignments at lines 366/368 overwrite any pairing the callee already has. -/
def session_cmd (st : SigState) (caller callee : String) : SigState :=
  if (dlookup callee st.peers).isSome = false then st
  else if dlookup caller st.peers ≠ some none then st
  else
    { st with
      peers := dinsert callee (some "session") (dinsert caller (some "session") st.peers),
      sessions := dinsert callee caller (dinsert caller callee st.sessions) }

/-- ROOM command (`handle_websocket` lines 370-395): reached only when the
caller's status is `None`; a room id equal to `'session'`, empty, or with
whitespace is rejected; the `AssertionError` for a member re-joining is
modelled as no mutation. -/
def room_cmd (st : SigState) (uid room_id : String) : SigState :=
  if dlookup uid st.peers ≠ some none then st
  else if room_id = "session" ∨ room_id = "" ∨ room_id.toList.any (fun c => c.isWhitespace) then st
  else
    let ps := (dlookup room_id st.rooms).getD []
    if uid ∈ ps then st
    else { st with peers := dinsert uid (some room_id) st.peers,
                   rooms := dinsert room_id (ps ++ [uid]) st.rooms }

/-- Server states reachable from the empty registry via HELLO registrations,
SESSION pairings, ROOM joins and peer removals.  Message relaying (session
forwarding, `ROOM_PEER_MSG`, `ROOM_PEER_LIST`) never mutates the registry,
so it contributes only identity transitions and is omitted. -/
inductive SigReach : SigState → Prop
  | init : SigReach sigInit
  | hello (st : SigState) (uid : String) : SigReach st → SigReach (hello_register st uid)
  | session (st : SigState) (caller callee : String) :
      SigReach st → SigReach (session_cmd st caller callee)
  | room (st : SigState) (uid room_id : String) :
      SigReach st → SigReach (room_cmd st uid room_id)
  | remove (st : SigState) (uid : String) : SigReach st → SigReach (remove_peer st uid)

/-- The five-message trace HELLO a; HELLO b; HELLO c; a: SESSION b; c: SESSION b. -/
def sigBad : SigState :=
  session_cmd (session_cmd (hello_register (hello_register (hello_register sigInit "a") "b") "c") "a" "b") "c" "b"

/-! ## Supervisor (`src/selkies/__main__.py`, class `StreamSupervisor`) -/

/-- `current_task` is modelled by its observable `done()` flag:
`some d` is a task with `task.done() = d`, `none` is no task. -/
structure SupervisorState where
  streamModes : List String
  currentStreamingMode : Option String
  currentTask : Option Bool
  deriving Repr, DecidableEq

/-- `self.current_task and not self.current_task.done()`. -/
def taskRunning (st : SupervisorState) : Bool :=
  match st.currentTask with
  | some done => !done
  | none => false

/-- Result of `switch_to_mode`: the `(ok, message)` pair, the state after the
call, and whether `current_task.cancel()` was invoked on the previous task. -/
structure SwitchResult where
  ok : Bool
  message : String
  state : SupervisorState
  cancelledPrevious : Bool
  deriving Repr, DecidableEq

/-- `StreamSupervisor.switch_to_mode` (lines 43-71).  A newly created task is
not yet done, hence `currentTask := some false` on success. -/
def switch_to_mode (st : SupervisorState) (mode : String) : SwitchResult :=
  if mode = "" then
    ⟨false, "Stream mode name cannot be empty.", st, false⟩
  else if mode ∉ st.streamModes then
    ⟨false, "Unknown stream mode " ++ mode, st, false⟩
  else if st.currentStreamingMode = some mode ∧ taskRunning st then
    ⟨false, "'" ++ mode ++ "' mode is already running", st, false⟩
  else
    ⟨true, "Switched to '" ++ mode ++ "' mode",
     { st with currentStreamingMode := some mode, currentTask := some false },
     taskRunning st⟩

/-! ## PipelineBridge (`src/selkies/rtc.py` lines 60-76)

The bridge's `asyncio.Queue(maxsize=1)` is a char-agnostic list of queued
items.  `set_data` mirrors the guarded `get_nowait`/`put_nowait` pair:
`none` would mean `put_nowait` raising `QueueFull`, which the drop-oldest
guard is meant to preclude.  `get_data` returns `none` when the consumer
would block on an empty queue. -/

def bridgeMaxsize : Nat := 1

/-- `PipelineBridge.set_data` (rtc.py lines 66-72). -/
def bridgeSetData (x : α) (q : List α) : Option (List α) :=
  let q1 := if bridgeMaxsize ≤ q.length then q.drop 1 else q
  if bridgeMaxsize ≤ q1.length then none else some (q1 ++ [x])

/-- `PipelineBridge.get_data` (rtc.py lines 74-76). -/
def bridgeGetData (q : List α) : Option (α × List α) :=
  match q with
  | [] => none
  | a :: t => some (a, t)

/-- Bridge queue contents reachable from the empty bridge through
non-blocking `set_data` and `get_data` steps. -/
inductive BridgeReach : List α → Prop
  | init : BridgeReach []
  | set (q q' : List α) (x : α) : BridgeReach q → bridgeSetData x q = some q' → BridgeReach q'
  | get (q q' : List α) (a : α) : BridgeReach q → bridgeGetData q = some (a, q') → BridgeReach q'

/-- When the queue respects its capacity, the drop-oldest guard always frees
the slot, so `put_nowait` cannot raise and the slot ends up holding exactly
the new item. -/
theorem bridgeSetData_of_le_one (x : α) (q : List α) (h : q.length ≤ 1) :
    bridgeSetData x q = some [x] := by
  match q with
  | [] => simp [bridgeSetData, bridgeMaxsize]
  | [a] => simp [bridgeSetData, bridgeMaxsize]
  | a :: b :: t => simp at h

theorem bridge_length_le_one {α : Type} (q : List α) (h : BridgeReach q) : q.length ≤ 1 := by
  induction h with
  | init => simp
  | set q q' x _ hset ih =>
    rw [bridgeSetData_of_le_one x q ih] at hset
    obtain rfl : [x] = q' := by simpa using hset
    simp
  | get q q' a _ hget ih =>
    cases q with
    | nil => simp [bridgeGetData] at hget
    | cons b t =>
      simp only [bridgeGetData, Option.some.injEq, Prod.mk.injEq] at hget
      obtain ⟨-, rfl⟩ := hget
      simp only [List.length_cons] at ih
      omega

/-! ## Claim theorems C1 - C3 -/

/-- Claim C1 (code bug evidence): the spec's session-symmetry invariant is
violated in a reachable server state.  After HELLO a, HELLO b, HELLO c,
`a: SESSION b`, `c: SESSION b`, the second pairing overwrites
`sessions[b]`, leaving `sessions[a] = b` while `sessions[b] = c`.  The
`SESSION` handler was meant to reject a busy callee — its error reply
names the callee — but it re-tests the caller's status instead, so the
guard never fires. -/
theorem session_symmetry_violated_reachable :
    SigReach sigBad ∧ dlookup "a" sigBad.sessions = some "b" ∧
      ¬ dlookup "b" sigBad.sessions = some "a" :=
  ⟨SigReach.session _ "c" "b" (SigReach.session _ "a" "b"
      (SigReach.hello _ "c" (SigReach.hello _ "b"
        (SigReach.hello _ "a" SigReach.init)))),
   by decide, by decide⟩

/-- Claim C2: switching to the mode that is currently running is rejected
with the ALREADY_RUNNING message and the supervisor state is unchanged —
no cancellation, no replacement of the running task.  The hypotheses
`m ∈ st.streamModes` and `m ≠ ""` record that the currently running mode
passed the same validation when it was started. -/
theorem switch_to_running_mode_rejected (st : SupervisorState) (m : String)
    (hmode : st.currentStreamingMode = some m) (htask : st.currentTask = some false)
    (hmem : m ∈ st.streamModes) (hne : m ≠ "") :
    switch_to_mode st m =
      ⟨false, "'" ++ m ++ "' mode is already running", st, false⟩ := by
  simp [switch_to_mode, hne, hmem, hmode, taskRunning, htask]

/-- Concrete instance of C2: supervisor running `webrtc`, asked to switch to
`webrtc` again. -/
theorem switch_to_running_mode_rejected_witness :
    ("webrtc" : String) ∈ ["websockets", "webrtc"] ∧
      switch_to_mode ⟨["websockets", "webrtc"], some "webrtc", some false⟩ "webrtc" =
        ⟨false, "'" ++ "webrtc" ++ "' mode is already running",
         ⟨["websockets", "webrtc"], some "webrtc", some false⟩, false⟩ :=
  ⟨by decide,
   switch_to_running_mode_rejected _ _ rfl rfl (by decide) (by decide)⟩

/-- Claim C3: every reachable bridge queue holds at most one item, and on a
reachable queue `set_data x` never blocks — the old unread item (if any) is
discarded, the slot ends up holding exactly `x`, and a consumer that then
resumes receives `x`, the most recently produced item. -/
theorem bridge_single_slot_drop_oldest {α : Type} (q : List α) (x : α)
    (h : BridgeReach q) :
    q.length ≤ 1 ∧ bridgeSetData x q = some [x] ∧
      bridgeGetData [x] = some (x, ([] : List α)) :=
  have hl := bridge_length_le_one q h
  ⟨hl, bridgeSetData_of_le_one x q hl, rfl⟩

/-- Concrete instance of C3 at the empty bridge with item 42. -/
theorem bridge_single_slot_drop_oldest_witness :
    ([] : List ℕ).length ≤ 1 ∧ bridgeSetData 42 ([] : List ℕ) = some [42] ∧
      bridgeGetData [42] = some (42, ([] : List ℕ)) :=
  bridge_single_slot_drop_oldest [] 42 BridgeReach.init

/-! ## Media pipeline (`src/selkies/media_pipeline.py`, class `MediaPipelineGst`)

Python floats are modelled exactly over `ℚ`; `int()` applied to a float is
truncation toward zero (`pyInt`). -/

/-- Python `int()` on a rational: truncation toward zero. -/
def pyInt (q : ℚ) : ℤ := if q < 0 then ⌈q⌉ else ⌊q⌋

theorem pyInt_of_nonneg (q : ℚ) (h : 0 ≤ q) : pyInt q = ⌊q⌋ := by
  simp [pyInt, not_lt.mpr h]

/-- The fields of `MediaPipelineGst` involved in keyframe/FEC derivation;
`pipeline` records whether `self.pipeline` is set (the `set_*` operations
early-return when it is not). -/
structure MediaState where
  framerate : ℤ
  keyframeDistance : ℚ
  videoBitrate : ℤ
  audioBitrate : ℤ
  videoPacketlossPercent : ℚ
  audioPacketlossPercent : ℚ
  minKeyframeFrameDistance : ℤ
  keyframeFrameDistance : ℤ
  fecVideoBitrate : ℤ
  fecAudioBitrate : ℤ
  pipeline : Bool
  deriving Repr, DecidableEq

/-- `MediaPipelineGst._calculate_auxiliary_keyframe_properties`
(media_pipeline.py lines 170-188). -/
def calculate_auxiliary (st : MediaState) : MediaState :=
  { st with
    minKeyframeFrameDistance := 60,
    keyframeFrameDistance :=
      if st.keyframeDistance = -1 then -1
      else max 60 (pyInt ((st.framerate : ℚ) * st.keyframeDistance)),
    fecVideoBitrate := pyInt ((st.videoBitrate : ℚ) / (1 + st.videoPacketlossPercent / 100)),
    fecAudioBitrate := pyInt ((st.audioBitrate : ℚ) * (1 + st.audioPacketlossPercent / 100)) }

/-- `MediaPipelineGst.__init__` (lines 141-155): store the settings, then run
the auxiliary-property calculation; `self.pipeline` starts as `None`. -/
def mkMediaPipeline (framerate : ℤ) (keyframeDistance : ℚ)
    (videoBitrate audioBitrate : ℤ) (videoPL audioPL : ℚ) : MediaState :=
  calculate_auxiliary
    { framerate := framerate, keyframeDistance := keyframeDistance,
      videoBitrate := videoBitrate, audioBitrate := audioBitrate,
      videoPacketlossPercent := videoPL, audioPacketlossPercent := audioPL,
      minKeyframeFrameDistance := 0, keyframeFrameDistance := 0,
      fecVideoBitrate := 0, fecAudioBitrate := 0, pipeline := false }

/-- `start_media_pipeline` as far as the tracked fields go: it installs
`self.pipeline`. -/
def start_media_pipeline (st : MediaState) : MediaState :=
  { st with pipeline := true }

/-- `MediaPipelineGst.set_framerate` (lines 1052-1063): early return without
a pipeline; otherwise store the framerate and recompute
`keyframe_frame_distance` with the same formula as the constructor. -/
def set_framerate (st : MediaState) (f : ℤ) : MediaState :=
  if st.pipeline = false then st
  else
    { st with framerate := f,
              keyframeFrameDistance :=
                if st.keyframeDistance = -1 then -1
                else max st.minKeyframeFrameDistance (pyInt ((f : ℚ) * st.keyframeDistance)) }

/-- `MediaPipelineGst.set_video_bitrate` (lines 1106-1157): the argument is
scaled by 1000 to kbps, the FEC rate divides by `1 + pct/100`, and both are
stored. -/
def set_video_bitrate (st : MediaState) (b : ℤ) : MediaState :=
  if st.pipeline = false then st
  else
    let b1 := b * 1000
    { st with videoBitrate := b1,
              fecVideoBitrate := pyInt ((b1 : ℚ) / (1 + st.videoPacketlossPercent / 100)) }

/-- `MediaPipelineGst.set_audio_bitrate` (lines 1159-1174). -/
def set_audio_bitrate (st : MediaState) (b : ℤ) : MediaState :=
  if st.pipeline = false then st
  else
    { st with audioBitrate := b,
              fecAudioBitrate := pyInt ((b : ℚ) * (1 + st.audioPacketlossPercent / 100)) }

/-- States reachable through construction (with non-negative bitrates and
packet-loss percentages, as supplied by the settings layer), pipeline start,
and the dynamic retuning calls. -/
inductive MediaReach : MediaState → Prop
  | init (f : ℤ) (kd : ℚ) (vb ab : ℤ) (vp ap : ℚ) :
      0 ≤ vb → 0 ≤ ab → 0 ≤ vp → 0 ≤ ap →
      MediaReach (mkMediaPipeline f kd vb ab vp ap)
  | start (st : MediaState) : MediaReach st → MediaReach (start_media_pipeline st)
  | framerate (st : MediaState) (f : ℤ) : MediaReach st → MediaReach (set_framerate st f)
  | video (st : MediaState) (b : ℤ) : 0 ≤ b → MediaReach st →
      MediaReach (set_video_bitrate st b)
  | audio (st : MediaState) (b : ℤ) : 0 ≤ b → MediaReach st →
      MediaReach (set_audio_bitrate st b)

theorem fec_video_le (vb : ℤ) (vp : ℚ) (hvb : 0 ≤ vb) (hvp : 0 ≤ vp) :
    pyInt ((vb : ℚ) / (1 + vp / 100)) ≤ vb := by
  have hden : (0 : ℚ) < 1 + vp / 100 := by linarith [div_nonneg hvp (by norm_num : (0:ℚ) ≤ 100)]
  have hq : (0 : ℚ) ≤ (vb : ℚ) / (1 + vp / 100) := by positivity
  rw [pyInt_of_nonneg _ hq]
  calc ⌊(vb : ℚ) / (1 + vp / 100)⌋
      ≤ ⌊(vb : ℚ)⌋ := by
        apply Int.floor_le_floor
        exact div_le_self (by exact_mod_cast hvb) (by linarith)
    _ = vb := Int.floor_intCast vb

theorem fec_audio_ge (ab : ℤ) (ap : ℚ) (hab : 0 ≤ ab) (hap : 0 ≤ ap) :
    ab ≤ pyInt ((ab : ℚ) * (1 + ap / 100)) := by
  have hfac : (1 : ℚ) ≤ 1 + ap / 100 := by
    linarith [div_nonneg hap (by norm_num : (0:ℚ) ≤ 100)]
  have hq : (0 : ℚ) ≤ (ab : ℚ) * (1 + ap / 100) := by
    apply mul_nonneg (by exact_mod_cast hab)
    linarith
  rw [pyInt_of_nonneg _ hq, Int.le_floor]
  exact le_mul_of_one_le_right (by exact_mod_cast hab) hfac

/-- The invariant carried through `MediaReach` inductions: non-negativity of
the stored rates and percentages, both FEC bounds, and the derived keyframe
frame-count formula (with truncation, as the code computes it). -/
def mediaInv (st : MediaState) : Prop :=
  0 ≤ st.videoPacketlossPercent ∧ 0 ≤ st.audioPacketlossPercent ∧
  0 ≤ st.videoBitrate ∧ 0 ≤ st.audioBitrate ∧
  st.fecVideoBitrate ≤ st.videoBitrate ∧ st.audioBitrate ≤ st.fecAudioBitrate ∧
  st.minKeyframeFrameDistance = 60 ∧
  st.keyframeFrameDistance =
    (if st.keyframeDistance = -1 then -1
     else max 60 (pyInt ((st.framerate : ℚ) * st.keyframeDistance)))

theorem mediaInv_of_reach (st : MediaState) (h : MediaReach st) : mediaInv st := by
  induction h with
  | init f kd vb ab vp ap hvb hab hvp hap =>
    refine ⟨hvp, hap, hvb, hab, ?_, ?_, rfl, rfl⟩
    · exact fec_video_le vb vp hvb hvp
    · exact fec_audio_ge ab ap hab hap
  | start st _ ih => exact ih
  | framerate st f _ ih =>
    obtain ⟨h1, h2, h3, h4, h5, h6, h7, h8⟩ := ih
    unfold set_framerate
    split
    · exact ⟨h1, h2, h3, h4, h5, h6, h7, h8⟩
    · exact ⟨h1, h2, h3, h4, h5, h6, h7, by simp [h7]⟩
  | video st b hb _ ih =>
    obtain ⟨h1, h2, h3, h4, h5, h6, h7, h8⟩ := ih
    unfold set_video_bitrate
    split
    · exact ⟨h1, h2, h3, h4, h5, h6, h7, h8⟩
    · refine ⟨h1, h2, by positivity, h4, ?_, h6, h7, h8⟩
      exact fec_video_le (b * 1000) st.videoPacketlossPercent (by positivity) h1
  | audio st b hb _ ih =>
    obtain ⟨h1, h2, h3, h4, h5, h6, h7, h8⟩ := ih
    unfold set_audio_bitrate
    split
    · exact ⟨h1, h2, h3, h4, h5, h6, h7, h8⟩
    · exact ⟨h1, h2, h3, hb, h5, fec_audio_ge b st.audioPacketlossPercent hb h2, h7, h8⟩

/-- Claim C6: in every reachable pipeline state the FEC-adjusted video
bitrate never exceeds the target video bitrate, and the FEC-adjusted audio
bitrate is at least the target audio bitrate. -/
theorem fec_bitrate_bounds (st : MediaState) (h : MediaReach st) :
    st.fecVideoBitrate ≤ st.videoBitrate ∧ st.audioBitrate ≤ st.fecAudioBitrate :=
  have hi := mediaInv_of_reach st h
  ⟨hi.2.2.2.2.1, hi.2.2.2.2.2.1⟩

/-- Concrete instance of C6 after construction and a bitrate retune. -/
theorem fec_bitrate_bounds_witness :
    (set_video_bitrate (start_media_pipeline (mkMediaPipeline 60 (-1) 8000 128000 5 10)) 12).fecVideoBitrate ≤
      (set_video_bitrate (start_media_pipeline (mkMediaPipeline 60 (-1) 8000 128000 5 10)) 12).videoBitrate ∧
    (set_video_bitrate (start_media_pipeline (mkMediaPipeline 60 (-1) 8000 128000 5 10)) 12).audioBitrate ≤
      (set_video_bitrate (start_media_pipeline (mkMediaPipeline 60 (-1) 8000 128000 5 10)) 12).fecAudioBitrate :=
  fec_bitrate_bounds _
    (MediaReach.video _ 12 (by norm_num)
      (MediaReach.start _
        (MediaReach.init 60 (-1) 8000 128000 5 10 (by norm_num) (by norm_num)
          (by norm_num) (by norm_num))))

/-- Modelled from the spec:
`keyframe_frames = -1 if keyframe_distance_s = -1 else max(60, round(framerate × keyframe_distance_s))`. -/
def specKeyframeFrames (framerate : ℤ) (keyframeDistance : ℚ) : ℤ :=
  if keyframeDistance = -1 then -1
  else max 60 (round ((framerate : ℚ) * keyframeDistance))

/-- Counterexample to claim C5 as stated: at framerate 30 and keyframe
distance 2.25 s the product is 67.5; the code truncates (`int`) to 67
while the spec's formula rounds to 68.  The state is reachable by plain
construction. -/
theorem keyframe_rounding_counterexample :
    MediaReach (mkMediaPipeline 30 (9 / 4) 8000 128000 0 0) ∧
      (mkMediaPipeline 30 (9 / 4) 8000 128000 0 0).keyframeFrameDistance = 67 ∧
      specKeyframeFrames 30 (9 / 4) = 68 :=
  ⟨MediaReach.init 30 (9 / 4) 8000 128000 0 0 (by norm_num) (by norm_num)
      (by norm_num) (by norm_num),
   by norm_num [mkMediaPipeline, calculate_auxiliary, pyInt],
   by norm_num [specKeyframeFrames, round_eq]⟩

/-- Claim C5 (amended): in every reachable state — after construction and
after every `set_framerate` call — the derived keyframe frame count equals
`-1` when the keyframe distance is `-1` and
`max(60, int(framerate × keyframe_distance))` (truncation toward zero,
not rounding) otherwise. -/
theorem keyframe_frames_formula (st : MediaState) (h : MediaReach st) :
    st.keyframeFrameDistance =
      (if st.keyframeDistance = -1 then -1
       else max 60 (pyInt ((st.framerate : ℚ) * st.keyframeDistance))) :=
  (mediaInv_of_reach st h).2.2.2.2.2.2.2

/-- Concrete instance of C5 (amended) after a `set_framerate` call. -/
theorem keyframe_frames_formula_witness :
    (set_framerate (start_media_pipeline (mkMediaPipeline 60 2 8000 128000 0 0)) 30).keyframeFrameDistance =
      (if (set_framerate (start_media_pipeline (mkMediaPipeline 60 2 8000 128000 0 0)) 30).keyframeDistance = -1 then -1
       else max 60 (pyInt (((set_framerate (start_media_pipeline (mkMediaPipeline 60 2 8000 128000 0 0)) 30).framerate : ℚ) *
         (set_framerate (start_media_pipeline (mkMediaPipeline 60 2 8000 128000 0 0)) 30).keyframeDistance))) :=
  keyframe_frames_formula _
    (MediaReach.framerate _ 30
      (MediaReach.start _
        (MediaReach.init 60 2 8000 128000 0 0 (by norm_num) (by norm_num)
          (by norm_num) (by norm_num))))

/-! ## Display fitting (`src/selkies/display_utils.py`, `fit_res`, lines 11-21)

The Python float division `w / h` is exact rational division here; the two
`int()` conversions are `pyInt`. -/

def fit_res (w h max_w max_h : ℤ) : ℤ × ℤ :=
  if w ≤ max_w ∧ h ≤ max_h then (w, h)
  else
    let aspect : ℚ := (w : ℚ) / (h : ℚ)
    let p1 : ℤ × ℤ := if max_w < w then (max_w, pyInt ((max_w : ℚ) / aspect)) else (w, h)
    let p2 : ℤ × ℤ := if max_h < p1.2 then (pyInt ((max_h : ℚ) * aspect), max_h) else p1
    (p2.1 - p2.1 % 2, p2.2 - p2.2 % 2)

/-- Counterexample to claim C8 as stated: an in-range odd resolution is
returned unchanged, so the result is not a pair of even dimensions. -/
theorem fit_res_counterexample :
    fit_res 3 3 7680 4320 = (3, 3) ∧ ¬ (fit_res 3 3 7680 4320).1 % 2 = 0 := by
  constructor
  · rfl
  · decide

theorem pyInt_scaled_le (a b w h : ℤ) (hw : 0 < w) (hh : 0 < h) (ha : 0 ≤ a)
    (hb : a * w < (b + 1) * h) :
    pyInt ((a : ℚ) * ((w : ℚ) / (h : ℚ))) ≤ b := by
  have hh' : (0 : ℚ) < (h : ℚ) := by exact_mod_cast hh
  have hw' : (0 : ℚ) ≤ (w : ℚ) := by positivity
  have ha' : (0 : ℚ) ≤ (a : ℚ) := by exact_mod_cast ha
  have hval : (0 : ℚ) ≤ (a : ℚ) * ((w : ℚ) / (h : ℚ)) := by positivity
  rw [pyInt_of_nonneg _ hval]
  have h2 : (a : ℚ) * ((w : ℚ) / (h : ℚ)) < ((b + 1 : ℤ) : ℚ) := by
    rw [mul_div_assoc', div_lt_iff₀ hh']
    exact_mod_cast hb
  have h3 := Int.floor_lt.mpr h2
  omega

/-- Claim C8 (amended): for positive inputs, `fit_res (w, h, 7680, 4320)`
returns dimensions within the limits; an input already within the limits is
returned unchanged (so possibly odd, refuting the unconditional evenness of
the claim), and whenever clamping occurs both returned dimensions are even.
Exact aspect preservation holds only up to the integer truncations. -/
theorem fit_res_bounds_even (w h : ℤ) (hw : 0 < w) (hh : 0 < h) :
    (fit_res w h 7680 4320).1 ≤ 7680 ∧ (fit_res w h 7680 4320).2 ≤ 4320 ∧
      (w ≤ 7680 ∧ h ≤ 4320 → fit_res w h 7680 4320 = (w, h)) ∧
      (¬ (w ≤ 7680 ∧ h ≤ 4320) →
        (fit_res w h 7680 4320).1 % 2 = 0 ∧ (fit_res w h 7680 4320).2 % 2 = 0) := by
  have hw' : (0 : ℚ) < (w : ℚ) := by exact_mod_cast hw
  have hh' : (0 : ℚ) < (h : ℚ) := by exact_mod_cast hh
  by_cases hin : w ≤ 7680 ∧ h ≤ 4320
  · rw [fit_res, if_pos hin]
    exact ⟨hin.1, hin.2, fun _ => rfl, fun hc => absurd hin hc⟩
  · rw [fit_res, if_neg hin]
    by_cases hW : (7680 : ℤ) < w
    · simp only [if_pos hW]
      have hXnn : (0 : ℚ) ≤ ((7680 : ℤ) : ℚ) / ((w : ℚ) / (h : ℚ)) := by positivity
      by_cases hH : (4320 : ℤ) < pyInt (((7680 : ℤ) : ℚ) / ((w : ℚ) / (h : ℚ)))
      · simp only [if_pos hH]
        have hfloor : pyInt (((7680 : ℤ) : ℚ) / ((w : ℚ) / (h : ℚ))) =
            ⌊(7680 : ℚ) * (h : ℚ) / (w : ℚ)⌋ := by
          rw [pyInt_of_nonneg _ hXnn, div_div_eq_mul_div]
          norm_num
        rw [hfloor] at hH
        have h41 : ((4321 : ℤ) : ℚ) ≤ (7680 : ℚ) * (h : ℚ) / (w : ℚ) :=
          Int.le_floor.mp (by omega)
        have h42 : (4321 : ℚ) * (w : ℚ) ≤ (7680 : ℚ) * (h : ℚ) := by
          rw [le_div_iff₀ hw'] at h41
          exact_mod_cast h41
        have h43 : (4321 : ℤ) * w ≤ 7680 * h := by exact_mod_cast h42
        have hY : pyInt (((4320 : ℤ) : ℚ) * ((w : ℚ) / (h : ℚ))) ≤ 7678 := by
          have := pyInt_scaled_le 4320 7678 w h hw hh (by norm_num) (by omega)
          exact_mod_cast this
        refine ⟨by omega, by norm_num, fun hc => absurd hc hin, fun _ => ⟨by omega, by norm_num⟩⟩
      · simp only [if_neg hH]
        refine ⟨by norm_num, by omega, fun hc => absurd hc hin, fun _ => ⟨by norm_num, by omega⟩⟩
    · simp only [if_neg hW]
      have hH : (4320 : ℤ) < h := by
        push_neg at hin
        omega
      simp only [if_pos hH]
      have hY : pyInt (((4320 : ℤ) : ℚ) * ((w : ℚ) / (h : ℚ))) ≤ 7678 := by
        have := pyInt_scaled_le 4320 7678 w h hw hh (by norm_num) (by omega)
        exact_mod_cast this
      refine ⟨by omega, by norm_num, fun hc => absurd hc hin, fun _ => ⟨by omega, by norm_num⟩⟩

/-- Concrete instance of C8 (amended) at 10000×3000, a resolution that
exceeds the width limit. -/
theorem fit_res_bounds_even_witness :
    (fit_res 10000 3000 7680 4320).1 ≤ 7680 ∧ (fit_res 10000 3000 7680 4320).2 ≤ 4320 ∧
      ((10000 : ℤ) ≤ 7680 ∧ (3000 : ℤ) ≤ 4320 → fit_res 10000 3000 7680 4320 = (10000, 3000)) ∧
      (¬ ((10000 : ℤ) ≤ 7680 ∧ (3000 : ℤ) ≤ 4320) →
        (fit_res 10000 3000 7680 4320).1 % 2 = 0 ∧ (fit_res 10000 3000 7680 4320).2 % 2 = 0) :=
  fit_res_bounds_even 10000 3000 (by norm_num) (by norm_num)

/-! ## Base64 (Python `base64.b64encode` / `b64decode`, RFC 4648)

The clipboard sender and the TURN credential generator call the standard
library's base64; it is modelled here over byte lists (`List ℕ`, each
element < 256) and character lists. -/

def b64alphabet : List Char :=
  "ABCDEFGHIJKLMNOPQRSTUVWXYZabcdefghijklmnopqrstuvwxyz0123456789+/".toList

def b64char (n : ℕ) : Char := b64alphabet.getD n '='

def b64val (c : Char) : ℕ := b64alphabet.indexOf c

def encodeB64 : List ℕ → List Char
  | a :: b :: c :: rest =>
    b64char (a / 4) :: b64char (a % 4 * 16 + b / 16) ::
      b64char (b % 16 * 4 + c / 64) :: b64char (c % 64) :: encodeB64 rest
  | [a, b] => [b64char (a / 4), b64char (a % 4 * 16 + b / 16), b64char (b % 16 * 4), '=']
  | [a] => [b64char (a / 4), b64char (a % 4 * 16), '=', '=']
  | [] => []

def decodeB64 : List Char → List ℕ
  | w :: x :: y :: z :: rest =>
    if z = '=' then
      if y = '=' then [b64val w * 4 + b64val x / 16]
      else [b64val w * 4 + b64val x / 16, b64val x % 16 * 16 + b64val y / 4]
    else
      (b64val w * 4 + b64val x / 16) :: (b64val x % 16 * 16 + b64val y / 4) ::
        (b64val y % 4 * 64 + b64val z) :: decodeB64 rest
  | _ => []

theorem b64val_b64char : ∀ n < 64, b64val (b64char n) = n := by decide

theorem b64char_ne_pad : ∀ n < 64, b64char n ≠ '=' := by decide

theorem decodeB64_encodeB64 : ∀ l : List ℕ, (∀ b ∈ l, b < 256) →
    decodeB64 (encodeB64 l) = l
  | [], _ => rfl
  | [a], h => by
    have ha : a < 256 := h a (by simp)
    have h1 := b64val_b64char (a / 4) (by omega)
    have h2 := b64val_b64char (a % 4 * 16) (by omega)
    simp only [encodeB64, decodeB64, eq_self_iff_true, if_true, h1, h2,
      List.cons.injEq, and_true]
    omega
  | [a, b], h => by
    have ha : a < 256 := h a (by simp)
    have hb : b < 256 := h b (by simp)
    have h1 := b64val_b64char (a / 4) (by omega)
    have h2 := b64val_b64char (a % 4 * 16 + b / 16) (by omega)
    have h3 := b64val_b64char (b % 16 * 4) (by omega)
    simp only [encodeB64, decodeB64, eq_self_iff_true, if_true,
      if_neg (b64char_ne_pad (b % 16 * 4) (by omega)), h1, h2, h3,
      List.cons.injEq, and_true]
    constructor <;> omega
  | a :: b :: c :: d :: rest, h => by
    have ha : a < 256 := h a (by simp)
    have hb : b < 256 := h b (by simp)
    have hc : c < 256 := h c (by simp)
    have h1 := b64val_b64char (a / 4) (by omega)
    have h2 := b64val_b64char (a % 4 * 16 + b / 16) (by omega)
    have h3 := b64val_b64char (b % 16 * 4 + c / 64) (by omega)
    have h4 := b64val_b64char (c % 64) (by omega)
    have hrest : ∀ x ∈ d :: rest, x < 256 := fun x hx => h x (by simp [hx])
    have hrec := decodeB64_encodeB64 (d :: rest) hrest
    simp only [encodeB64, decodeB64, if_neg (b64char_ne_pad (c % 64) (by omega)),
      h1, h2, h3, h4, hrec, List.cons.injEq, and_true]
    refine ⟨by omega, by omega, by omega⟩
  | [a, b, c], h => by
    have ha : a < 256 := h a (by simp)
    have hb : b < 256 := h b (by simp)
    have hc : c < 256 := h c (by simp)
    have h1 := b64val_b64char (a / 4) (by omega)
    have h2 := b64val_b64char (a % 4 * 16 + b / 16) (by omega)
    have h3 := b64val_b64char (b % 16 * 4 + c / 64) (by omega)
    have h4 := b64val_b64char (c % 64) (by omega)
    simp only [encodeB64, decodeB64, if_neg (b64char_ne_pad (c % 64) (by omega)),
      h1, h2, h3, h4, List.cons.injEq, and_true]
    refine ⟨by omega, by omega, by omega⟩

theorem encodeB64_ne_nil (l : List ℕ) (h : l ≠ []) : encodeB64 l ≠ [] := by
  match l with
  | [] => exact absurd rfl h
  | [a] => simp [encodeB64]
  | [a, b] => simp [encodeB64]
  | a :: b :: c :: rest => simp [encodeB64]

/-! ## Clipboard chunking (`src/selkies/rtc.py`, `RTCApp.send_clipboard_data`,
lines 165-182)

The payload is the byte sequence `data.encode()`; the chunk loop walks the
base64 character string 65 400 characters at a time. -/

def CLIPBOARD_CHUNK_SIZE : ℕ := 65400

/-- The while-loop of `send_clipboard_data`: at offset `read` with remainder
`msg`, a full `"clipboard-msg"` chunk is cut while `read + 65400 < len`,
otherwise the rest goes out as the single `"clipboard-msg-end"` chunk. -/
def clipboardChunks (msg : List Char) : List (String × List Char) :=
  if _hne : msg = [] then []
  else if hlt : CLIPBOARD_CHUNK_SIZE < msg.length then
    ("clipboard-msg", msg.take CLIPBOARD_CHUNK_SIZE) ::
      clipboardChunks (msg.drop CLIPBOARD_CHUNK_SIZE)
  else [("clipboard-msg-end", msg)]
termination_by msg.length
decreasing_by
  simp only [List.length_drop]
  unfold CLIPBOARD_CHUNK_SIZE at hlt ⊢
  omega

theorem clipboardChunks_spec : ∀ msg : List Char, msg ≠ [] →
    ∃ full last, clipboardChunks msg = full ++ [("clipboard-msg-end", last)] ∧
      (∀ p ∈ full, p.1 = "clipboard-msg" ∧ p.2.length = CLIPBOARD_CHUNK_SIZE) ∧
      1 ≤ last.length ∧ last.length ≤ CLIPBOARD_CHUNK_SIZE ∧
      ((clipboardChunks msg).map Prod.snd).flatten = msg
  | msg, hne => by
    rw [clipboardChunks, dif_neg hne]
    by_cases hlt : CLIPBOARD_CHUNK_SIZE < msg.length
    · rw [dif_pos hlt]
      have hdne : msg.drop CLIPBOARD_CHUNK_SIZE ≠ [] := by
        intro hc
        rw [List.drop_eq_nil_iff] at hc
        omega
      obtain ⟨full, last, heq, hfull, hl1, hl2, hjoin⟩ :=
        clipboardChunks_spec (msg.drop CLIPBOARD_CHUNK_SIZE) hdne
      refine ⟨("clipboard-msg", msg.take CLIPBOARD_CHUNK_SIZE) :: full, last, ?_, ?_, hl1, hl2, ?_⟩
      · rw [heq]
        rfl
      · intro p hp
        rcases List.mem_cons.mp hp with hp | hp
        · subst hp
          refine ⟨rfl, ?_⟩
          rw [List.length_take]
          omega
        · exact hfull p hp
      · simp only [List.map_cons, List.flatten_cons]
        rw [hjoin, List.take_append_drop]
    · rw [dif_neg hlt]
      have hpos : 0 < msg.length := List.length_pos.mpr hne
      exact ⟨[], msg, rfl, by simp, by omega, by omega, by simp⟩
termination_by msg => msg.length
decreasing_by
  simp only [List.length_drop]
  unfold CLIPBOARD_CHUNK_SIZE at hlt ⊢
  omega

/-! ## RTCApp data-channel sends (`src/selkies/rtc.py`, class `RTCApp`)

The observable state: `peerConnection` is `some s` when a peer connection
with `connectionState = s` exists, `dataChannel` records whether the
`"input"` channel object has been created, `lastCursorSent` mirrors the
attribute of the same name, and `sentMessages` logs every
`data_channel.send` that actually happened.  Payload strings stand for the
JSON-serialised `data` dictionaries, whose structure none of the tracked
claims depends on. -/

structure RTCAppState where
  peerConnection : Option String
  dataChannel : Bool
  lastCursorSent : Option String
  sentMessages : List (String × String)
  deriving Repr, DecidableEq

/-- `RTCApp.is_data_channel_ready` (rtc.py lines 260-262); the `none` branch
is unreachable from the call site, which has already checked the peer
connection. -/
def is_data_channel_ready (st : RTCAppState) : Bool :=
  st.dataChannel && (match st.peerConnection with
    | some cs => cs == "connected"
    | none => false)

/-- `RTCApp.__send_data_channel_message` (lines 264-276). -/
def send_data_channel_message (st : RTCAppState) (msgType data : String) : RTCAppState :=
  match st.peerConnection with
  | none => st
  | some _ =>
    if is_data_channel_ready st then
      { st with sentMessages := st.sentMessages ++ [(msgType, data)] }
    else st

/-- `RTCApp.send_cursor_data` (lines 184-187): records `last_cursor_sent`
unconditionally, then attempts the channel send. -/
def send_cursor_data (st : RTCAppState) (data : String) : RTCAppState :=
  send_data_channel_message { st with lastCursorSent := some data } "cursor" data

def send_gpu_stats (st : RTCAppState) (payload : String) : RTCAppState :=
  send_data_channel_message st "gpu_stats" payload

def send_system_stats (st : RTCAppState) (payload : String) : RTCAppState :=
  send_data_channel_message st "system_stats" payload

def send_ping (st : RTCAppState) (payload : String) : RTCAppState :=
  send_data_channel_message st "ping" payload

def send_latency_time (st : RTCAppState) (payload : String) : RTCAppState :=
  send_data_channel_message st "latency_measurement" payload

def send_reload_window (st : RTCAppState) : RTCAppState :=
  send_data_channel_message st "system" "reload"

def send_media_data_over_channel (st : RTCAppState) (msgType data : String) : RTCAppState :=
  send_data_channel_message st msgType data

/-- The frame sequence `send_clipboard_data` emits for byte payload `data`:
nothing for an empty payload, otherwise the chunks of the base64 string. -/
def send_clipboard_frames (data : List ℕ) : List (String × List Char) :=
  if data = [] then [] else clipboardChunks (encodeB64 data)

/-- `RTCApp.send_clipboard_data` as a state transformer: each chunk goes
through `__send_data_channel_message`. -/
def send_clipboard_data (st : RTCAppState) (data : List ℕ) : RTCAppState :=
  (send_clipboard_frames data).foldl
    (fun s f => send_data_channel_message s f.1 (String.mk f.2)) st

/-! ## TURN credential generation
(`src/selkies_gstreamer/signalling_web.py`, `generate_rtc_config`,
lines 52-86)

Strings are char lists; `hmacSha1 key message` is the digest of the
external `hmac.new(key, raw, sha1)` primitive, taken as a parameter. -/

def sanitizeUser (u : List Char) : List Char :=
  u.map (fun c => if c = ':' then '-' else c)

def natChars (n : ℕ) : List Char := (Nat.repr n).toList

structure RtcConfig where
  lifetimeDuration : List Char
  stunUrl : List Char
  turnUrl : List Char
  username : List Char
  credential : List Char
  deriving Repr, DecidableEq

def generate_rtc_config (hmacSha1 : List Char → List Char → List ℕ)
    (turnHost turnPort sharedSecret user protocol : List Char) (turnTls : Bool)
    (now : ℕ) : RtcConfig :=
  let user1 := sanitizeUser user
  let exp := now + 24 * 3600
  let username := natChars exp ++ '-' :: user1
  let password := encodeB64 (hmacSha1 sharedSecret username)
  { lifetimeDuration := natChars (24 * 3600) ++ ['s'],
    stunUrl := "stun:".toList ++ turnHost ++ ':' :: turnPort,
    turnUrl := (if turnTls then "turns" else "turn").toList ++ ':' :: turnHost ++
      ':' :: turnPort ++ "?transport=".toList ++ protocol,
    username := username,
    credential := password }

theorem sanitizeUser_of_no_colon (u : List Char) (h : ':' ∉ u) : sanitizeUser u = u := by
  induction u with
  | nil => rfl
  | cons c t ih =>
    have hc : c ≠ ':' := fun hcc => h (by simp [hcc])
    have ht : ':' ∉ t := fun htt => h (by simp [htt])
    simp only [sanitizeUser, List.map_cons, if_neg hc]
    exact congrArg (c :: ·) (ih ht)

/-! ## Claim theorems C4, C7, C9, C10 -/

/-- Claim C4: for a non-empty byte payload, the emitted chunk sequence is
some number of full `"clipboard-msg"` frames of exactly 65 400 base64
characters followed by exactly one `"clipboard-msg-end"` frame of between 1
and 65 400 characters, and base64-decoding the concatenation of all chunk
contents recovers the original payload. -/
theorem clipboard_chunking_correct (data : List ℕ) (hne : data ≠ [])
    (hb : ∀ b ∈ data, b < 256) :
    ∃ full last, send_clipboard_frames data = full ++ [("clipboard-msg-end", last)] ∧
      (∀ p ∈ full, p.1 = "clipboard-msg" ∧ p.2.length = 65400) ∧
      1 ≤ last.length ∧ last.length ≤ 65400 ∧
      decodeB64 (((send_clipboard_frames data).map Prod.snd).flatten) = data := by
  have henc := encodeB64_ne_nil data hne
  obtain ⟨full, last, heq, hfull, h1, h2, hjoin⟩ :=
    clipboardChunks_spec (encodeB64 data) henc
  have hframes : send_clipboard_frames data = clipboardChunks (encodeB64 data) := by
    rw [send_clipboard_frames, if_neg hne]
  refine ⟨full, last, by rw [hframes]; exact heq, ?_, h1, h2, ?_⟩
  · intro p hp
    exact hfull p hp
  · rw [hframes, hjoin]
    exact decodeB64_encodeB64 data hb

/-- Concrete instance of C4 for the two-byte payload "hi". -/
theorem clipboard_chunking_correct_witness :
    ([104, 105] : List ℕ) ≠ [] ∧
      ∃ full last,
        send_clipboard_frames [104, 105] = full ++ [("clipboard-msg-end", last)] ∧
        (∀ p ∈ full, p.1 = "clipboard-msg" ∧ p.2.length = 65400) ∧
        1 ≤ last.length ∧ last.length ≤ 65400 ∧
        decodeB64 (((send_clipboard_frames [104, 105]).map Prod.snd).flatten) = [104, 105] :=
  ⟨by decide, clipboard_chunking_correct [104, 105] (by decide) (by decide)⟩

/-- Claim C7: the generated TURN username is `"<exp>-<user>"` with
`exp = now + 86400`, and the credential is the base64 of the HMAC-SHA1 of
the username under the shared secret; the HMAC-SHA1 digest of the Python
standard library is an uninterpreted parameter.  The hypothesis records
that the user name contains no `':'` (the code first replaces `':'` with
`'-'`). -/
theorem turn_credential_formula (hmacSha1 : List Char → List Char → List ℕ)
    (turnHost turnPort sharedSecret user protocol : List Char) (turnTls : Bool)
    (now : ℕ) (hu : ':' ∉ user) :
    (generate_rtc_config hmacSha1 turnHost turnPort sharedSecret user protocol
        turnTls now).username = natChars (now + 86400) ++ '-' :: user ∧
      (generate_rtc_config hmacSha1 turnHost turnPort sharedSecret user protocol
          turnTls now).credential =
        encodeB64 (hmacSha1 sharedSecret
          ((generate_rtc_config hmacSha1 turnHost turnPort sharedSecret user protocol
              turnTls now).username)) := by
  unfold generate_rtc_config
  simp only [sanitizeUser_of_no_colon user hu]
  exact ⟨by norm_num, by trivial⟩

/-- Concrete instance of C7: at `now = 1000` with secret `"s"` and user
`"alice"` the username is `"87400-alice"` and the credential is the base64
of `hmac_sha1("s", "87400-alice")` (here a stub digest `[1, 2, 3]`). -/
theorem turn_credential_formula_witness :
    (generate_rtc_config (fun _ _ => [1, 2, 3]) "turn.example.com".toList "3478".toList
        "s".toList "alice".toList "udp".toList false 1000).username = "87400-alice".toList ∧
      (generate_rtc_config (fun _ _ => [1, 2, 3]) "turn.example.com".toList "3478".toList
        "s".toList "alice".toList "udp".toList false 1000).credential = encodeB64 [1, 2, 3] := by
  have h := turn_credential_formula (fun _ _ => [1, 2, 3]) "turn.example.com".toList
    "3478".toList "s".toList "alice".toList "udp".toList false 1000 (by decide)
  refine ⟨?_, h.2⟩
  rw [h.1]
  rfl

theorem send_message_not_ready (st : RTCAppState) (t d : String)
    (h : st.peerConnection ≠ some "connected" ∨ st.dataChannel = false) :
    send_data_channel_message st t d = st := by
  unfold send_data_channel_message
  cases hpc : st.peerConnection with
  | none => rfl
  | some cs =>
    have hnr : is_data_channel_ready st = false := by
      unfold is_data_channel_ready
      rw [hpc]
      rcases h with h | h
      · have hcs : cs ≠ "connected" := fun hcc => h (by rw [hpc, hcc])
        simp [hcs]
      · simp [h]
    simp [hnr]

theorem foldl_send_not_ready (st : RTCAppState)
    (h : st.peerConnection ≠ some "connected" ∨ st.dataChannel = false) :
    ∀ frames : List (String × List Char),
      frames.foldl (fun s f => send_data_channel_message s f.1 (String.mk f.2)) st = st
  | [] => rfl
  | f :: rest => by
    rw [List.foldl_cons, send_message_not_ready st f.1 (String.mk f.2) h]
    exact foldl_send_not_ready st h rest

/-- Claim C9: whenever the peer connection is absent, its state is not
`"connected"`, or the `"input"` data channel has not been created, every
outbound data-channel send returns without sending and without any state
change — except `send_cursor_data`, which still records `last_cursor_sent`. -/
theorem sends_dropped_when_not_ready (st : RTCAppState) (t d : String) (data : List ℕ)
    (h : st.peerConnection ≠ some "connected" ∨ st.dataChannel = false) :
    send_data_channel_message st t d = st ∧
      send_cursor_data st d = { st with lastCursorSent := some d } ∧
      send_clipboard_data st data = st ∧
      send_gpu_stats st d = st ∧ send_system_stats st d = st ∧
      send_ping st d = st ∧ send_latency_time st d = st ∧
      send_reload_window st = st ∧ send_media_data_over_channel st t d = st := by
  refine ⟨send_message_not_ready st t d h, ?_, ?_,
    send_message_not_ready st "gpu_stats" d h,
    send_message_not_ready st "system_stats" d h,
    send_message_not_ready st "ping" d h,
    send_message_not_ready st "latency_measurement" d h,
    send_message_not_ready st "system" "reload" h,
    send_message_not_ready st t d h⟩
  · exact send_message_not_ready { st with lastCursorSent := some d } "cursor" d h
  · exact foldl_send_not_ready st h (send_clipboard_frames data)

/-- Concrete instance of C9: the data channel exists but no peer connection
does, so every send is dropped. -/
theorem sends_dropped_when_not_ready_witness :
    send_data_channel_message ⟨none, true, none, []⟩ "ping" "x" = ⟨none, true, none, []⟩ ∧
      send_cursor_data ⟨none, true, none, []⟩ "x" = ⟨none, true, some "x", []⟩ ∧
      send_clipboard_data ⟨none, true, none, []⟩ [104] = ⟨none, true, none, []⟩ ∧
      send_gpu_stats ⟨none, true, none, []⟩ "x" = ⟨none, true, none, []⟩ ∧
      send_system_stats ⟨none, true, none, []⟩ "x" = ⟨none, true, none, []⟩ ∧
      send_ping ⟨none, true, none, []⟩ "x" = ⟨none, true, none, []⟩ ∧
      send_latency_time ⟨none, true, none, []⟩ "x" = ⟨none, true, none, []⟩ ∧
      send_reload_window ⟨none, true, none, []⟩ = ⟨none, true, none, []⟩ ∧
      send_media_data_over_channel ⟨none, true, none, []⟩ "ping" "x" = ⟨none, true, none, []⟩ :=
  sends_dropped_when_not_ready ⟨none, true, none, []⟩ "ping" "x" [104]
    (Or.inl (by simp))

/-- Claim C10: `send_clipboard_data` with an empty payload emits no frames
at all — in particular no `"clipboard-msg-end"` frame — and leaves any
application state unchanged. -/
theorem empty_clipboard_sends_nothing :
    send_clipboard_frames [] = [] ∧
      "clipboard-msg-end" ∉ (send_clipboard_frames ([] : List ℕ)).map Prod.fst ∧
      ∀ st : RTCAppState, send_clipboard_data st [] = st :=
  ⟨rfl, by simp [send_clipboard_frames], fun st => rfl⟩

end Selkies
